import Mathlib

/-!
Shallow embedding of the ai-interview-system pipeline (src/main.py).

The script drives four LLM "agents" over one mutable `InterviewState`:
job-description analysis, question generation, answer evaluation and the
final hiring decision.  The external language model is embedded as a record
of response functions, one per agent chain; chains that end in a
`JsonOutputParser` return either a decode error or the parsed JSON dict.
`JsonOutputParser(pydantic_object=...)` only uses the pydantic class for
format instructions and does not validate the parsed dict, so the dicts are
embedded with every schema key optional.  Python mutation of the state is
embedded as explicit state passing; exceptions (decode failures, `KeyError`
on a missing dict key) are embedded with `Except`.
-/

/-- The JSON dict produced by the job-description chain (`jd_agent`),
restricted to the four keys of the `JobAnalysis` schema.  Each key may be
absent, since `JsonOutputParser` performs no schema validation. -/
structure ReqDict where
  role_title : Option String
  technical_skills : Option (List String)
  soft_skills : Option (List String)
  seniority_level : Option String
deriving Repr, DecidableEq

/-- The empty dict: the default value of `InterviewState.analyzed_requirements`
(`field(default_factory=dict)`). -/
def ReqDict.empty : ReqDict :=
  ⟨none, none, none, none⟩

/-- The JSON dict produced by the evaluation chain (`eval_agent`), restricted
to the two keys of the `EvaluationScore` schema; keys may be absent. -/
structure EvalDict where
  score : Option Int
  reasoning : Option String
deriving Repr, DecidableEq

/-- The record appended to `state.evaluations` by `evaluate_answer`
(src/main.py lines 106-109). -/
structure Evaluation where
  question : String
  answer : String
  score : Int
  reasoning : String
deriving Repr, DecidableEq

/-- The `InterviewState` dataclass (src/main.py lines 34-41). -/
structure InterviewState where
  candidate_name : String
  job_description : String
  analyzed_requirements : ReqDict
  generated_questions : List String
  evaluations : List Evaluation
  final_recommendation : Option String
deriving Repr, DecidableEq

/-- The template variables filled into `q_prompt` by `generate_question`
(src/main.py lines 77-83). -/
structure QInput where
  role : Option String
  tech_skills : String
  seniority : Option String
  previous_questions : String
  focus_area : String
deriving Repr, DecidableEq

/-- The template variables filled into `eval_prompt` by `evaluate_answer`
(src/main.py lines 100-105). -/
structure EvalInput where
  question : String
  answer : String
  skills : Option (List String)
deriving Repr, DecidableEq

/-- The template variables filled into `rec_prompt` by
`generate_final_decision` (src/main.py lines 125-129). -/
structure RecInput where
  name : String
  role : Option String
  evaluations : String
deriving Repr, DecidableEq

/-- The external language model: one response function per agent chain.
Chains ending in `JsonOutputParser` (`jd_agent`, `eval_agent`) return the
parsed dict or a decode error; chains ending in `StrOutputParser`
(`q_agent`, `rec_agent`) return free text. -/
structure Model where
  jd_response : String → Except String ReqDict
  q_response : QInput → String
  eval_response : EvalInput → Except String EvalDict
  rec_response : RecInput → String

/-- `analyze_jd` (src/main.py lines 57-65): invoke the jd chain on the job
description, store the parsed dict in `analyzed_requirements`, then read
`result['role_title']` (line 64) — a missing key raises `KeyError`.  A
decode error or `KeyError` propagates to the caller. -/
def analyze_jd (m : Model) (state : InterviewState) : Except String InterviewState :=
  match m.jd_response state.job_description with
  | .error e => .error e
  | .ok result =>
    let state1 := { state with analyzed_requirements := result }
    match result.role_title with
    | none => .error "KeyError: role_title"
    | some _ => .ok state1

/-- `generate_question` (src/main.py lines 76-85): invoke the question chain
with the role, skills, seniority, previous questions and the focus topic,
append the returned text to `generated_questions`, and return it. -/
def generate_question (m : Model) (state : InterviewState) (topic : String) :
    InterviewState × String :=
  let response := m.q_response
    { role := state.analyzed_requirements.role_title
      tech_skills := String.intercalate ", " (state.analyzed_requirements.technical_skills.getD [])
      seniority := state.analyzed_requirements.seniority_level
      previous_questions := String.intercalate "\n" state.generated_questions
      focus_area := topic }
  ({ state with generated_questions := state.generated_questions ++ [response] }, response)

/-- `evaluate_answer` (src/main.py lines 99-110): invoke the evaluation
chain, then append `{question, answer, score: result['score'], reasoning:
result['reasoning']}` to `evaluations`.  A decode error, or a `KeyError`
when the parsed dict lacks `score` or `reasoning`, propagates. -/
def evaluate_answer (m : Model) (state : InterviewState) (question answer : String) :
    Except String (InterviewState × EvalDict) :=
  match m.eval_response
      { question := question
        answer := answer
        skills := state.analyzed_requirements.technical_skills } with
  | .error e => .error e
  | .ok result =>
    match result.score, result.reasoning with
    | some sc, some rs =>
      .ok ({ state with evaluations := state.evaluations ++
              [{ question := question, answer := answer, score := sc, reasoning := rs }] },
           result)
    | _, _ => .error "KeyError: score or reasoning"

/-- One block of the summary string built by `generate_final_decision`
(src/main.py line 123):
`f"Q: {q}\nScore: {score}/10\nNotes: {reasoning}\n\n"`. -/
def eval_block (entry : Evaluation) : String :=
  "Q: " ++ entry.question ++ "\nScore: " ++ toString entry.score ++ "/10\nNotes: "
    ++ entry.reasoning ++ "\n\n"

/-- The `eval_summary` accumulation loop of `generate_final_decision`
(src/main.py lines 121-123): starts from `""` and appends one block per
evaluation-log entry, in log order. -/
def eval_summary (evals : List Evaluation) : String :=
  List.foldl (fun acc entry => acc ++ eval_block entry) "" evals

/-- `generate_final_decision` (src/main.py lines 119-131): build the summary
of the evaluation log, invoke the recommendation chain, store the returned
verdict verbatim in `final_recommendation` and return it. -/
def generate_final_decision (m : Model) (state : InterviewState) :
    InterviewState × String :=
  let decision := m.rec_response
    { name := state.candidate_name
      role := state.analyzed_requirements.role_title
      evaluations := eval_summary state.evaluations }
  ({ state with final_recommendation := some decision }, decision)

/-- The fresh session created at the start of `run_interview`
(src/main.py line 135): only name and job description set, other fields at
their dataclass defaults. -/
def init_state (candidate_name jd_text : String) : InterviewState :=
  { candidate_name := candidate_name
    job_description := jd_text
    analyzed_requirements := ReqDict.empty
    generated_questions := []
    evaluations := []
    final_recommendation := none }

/-- The per-skill loop of `run_interview` (src/main.py lines 144-154):
generate a question, read the candidate's interactive answer, evaluate;
the session state is threaded through, and the first failure aborts the
run.  `answers i` is the `input()` result for the i-th cycle. -/
def interview_loop (m : Model) (answers : Nat → String) :
    List String → Nat → InterviewState → Except String InterviewState
  | [], _, state => .ok state
  | skill :: rest, i, state =>
    let qr := generate_question m state skill
    match evaluate_answer m qr.1 qr.2 (answers i) with
    | .error e => .error e
    | .ok res => interview_loop m answers rest (i + 1) res.1

/-- `run_interview` (src/main.py lines 134-158): create the session, analyze
the job description, loop over the first 2 extracted technical skills
(`[:2]`, "Limit to 2 for demo"), then produce the final decision.  The
final session state is returned as the observable result. -/
def run_interview (m : Model) (answers : Nat → String) (jd_text candidate_name : String) :
    Except String InterviewState :=
  match analyze_jd m (init_state candidate_name jd_text) with
  | .error e => .error e
  | .ok state =>
    let skills := (state.analyzed_requirements.technical_skills.getD []).take 2
    match interview_loop m answers skills 0 state with
    | .error e => .error e
    | .ok state2 => .ok (generate_final_decision m state2).1

/-! ## Helper lemmas shared by the claim theorems -/

/-- `generate_question` only appends to `generated_questions`; all other
session fields are returned unchanged. -/
theorem generate_question_state_eq (m : Model) (state : InterviewState) (topic : String) :
    (generate_question m state topic).1
      = { state with generated_questions :=
            state.generated_questions ++ [(generate_question m state topic).2] } :=
  rfl

/-- `generate_final_decision` only writes `final_recommendation`; all other
session fields are returned unchanged, and the stored text is exactly the
model's verdict. -/
theorem generate_final_decision_state_eq (m : Model) (state : InterviewState) :
    (generate_final_decision m state).1
      = { state with final_recommendation := some (generate_final_decision m state).2 } :=
  rfl

/-- The verdict returned by `generate_final_decision` is the model's
response to the candidate name, stored role title and evaluation summary. -/
theorem generate_final_decision_snd_eq (m : Model) (state : InterviewState) :
    (generate_final_decision m state).2
      = m.rec_response
          { name := state.candidate_name
            role := state.analyzed_requirements.role_title
            evaluations := eval_summary state.evaluations } :=
  rfl

/-- Inversion for a successful `analyze_jd`: the jd chain decoded to a dict
whose `role_title` key is present, and the output state is the input state
with only `analyzed_requirements` replaced. -/
theorem analyze_jd_ok_inv (m : Model) (state s1 : InterviewState)
    (h : analyze_jd m state = .ok s1) :
    ∃ req rt, m.jd_response state.job_description = .ok req ∧
      req.role_title = some rt ∧
      s1 = { state with analyzed_requirements := req } := by
  unfold analyze_jd at h
  cases hjd : m.jd_response state.job_description with
  | error e => rw [hjd] at h; exact absurd h (by simp)
  | ok req =>
    rw [hjd] at h
    cases hrt : req.role_title with
    | none => simp [hrt] at h
    | some rt =>
      refine ⟨req, rt, rfl, hrt, ?_⟩
      simp [hrt] at h
      exact h.symm

/-- Inversion for a successful `evaluate_answer`: the evaluation chain
decoded to a dict with both keys present, and the output state is the input
state with exactly one record appended to `evaluations`. -/
theorem evaluate_answer_ok_inv (m : Model) (state s2 : InterviewState)
    (question answer : String) (d : EvalDict)
    (h : evaluate_answer m state question answer = .ok (s2, d)) :
    ∃ sc rs, d = ⟨some sc, some rs⟩ ∧
      s2 = { state with evaluations := state.evaluations ++
              [{ question := question, answer := answer, score := sc, reasoning := rs }] } := by
  unfold evaluate_answer at h
  cases he : m.eval_response
      { question := question, answer := answer,
        skills := state.analyzed_requirements.technical_skills } with
  | error e => rw [he] at h; exact absurd h (by simp)
  | ok result =>
    rw [he] at h
    cases hsc : result.score with
    | none => simp [hsc] at h
    | some sc =>
      cases hrs : result.reasoning with
      | none => simp [hsc, hrs] at h
      | some rs =>
        simp only [hsc, hrs] at h
        refine ⟨sc, rs, ?_, ?_⟩
        · cases result
          cases h
          simp_all
        · cases h
          simp_all

/-- Master invariant of a successful `interview_loop`: the candidate name,
job description, analyzed requirements and final recommendation are
untouched; exactly one question and one evaluation are added per skill;
question/evaluation index alignment is preserved; and both sequences grow
only by appending. -/
theorem interview_loop_ok_inv (m : Model) (answers : Nat → String) :
    ∀ (skills : List String) (i : Nat) (s s' : InterviewState),
      interview_loop m answers skills i s = .ok s' →
      s'.candidate_name = s.candidate_name ∧
      s'.job_description = s.job_description ∧
      s'.analyzed_requirements = s.analyzed_requirements ∧
      s'.final_recommendation = s.final_recommendation ∧
      s'.generated_questions.length = s.generated_questions.length + skills.length ∧
      s'.evaluations.length = s.evaluations.length + skills.length ∧
      (s.evaluations.map Evaluation.question = s.generated_questions →
        s'.evaluations.map Evaluation.question = s'.generated_questions) ∧
      (∃ qs, s'.generated_questions = s.generated_questions ++ qs) ∧
      (∃ es, s'.evaluations = s.evaluations ++ es) := by
  intro skills
  induction skills with
  | nil =>
    intro i s s' h
    simp only [interview_loop] at h
    injection h with h
    subst h
    exact ⟨rfl, rfl, rfl, rfl, by simp, by simp, fun hal => hal,
      ⟨[], by simp⟩, ⟨[], by simp⟩⟩
  | cons skill rest ih =>
    intro i s s' h
    simp only [interview_loop] at h
    cases heval : evaluate_answer m (generate_question m s skill).1
        (generate_question m s skill).2 (answers i) with
    | error e => rw [heval] at h; exact absurd h (by simp)
    | ok res =>
      rw [heval] at h
      obtain ⟨s2, d⟩ := res
      dsimp only at h
      obtain ⟨sc, rs, hd, hs2⟩ :=
        evaluate_answer_ok_inv m (generate_question m s skill).1 s2
          (generate_question m s skill).2 (answers i) d heval
      have hs2X : s2 = { s with
          generated_questions :=
            s.generated_questions ++ [(generate_question m s skill).2],
          evaluations := s.evaluations ++
            [{ question := (generate_question m s skill).2, answer := answers i,
               score := sc, reasoning := rs }] } := by
        rw [hs2, generate_question_state_eq]
      subst hs2X
      obtain ⟨h1, h2, h3, h4, h5, h6, h7, ⟨qs, hqs⟩, ⟨es, hes⟩⟩ := ih (i + 1) _ s' h
      refine ⟨h1, h2, h3, h4, ?_, ?_, ?_, ?_, ?_⟩
      · simp at h5 ⊢
        omega
      · simp at h6 ⊢
        omega
      · intro hal
        apply h7
        simp only [List.map_append, List.map_cons, List.map_nil]
        rw [hal]
      · exact ⟨(generate_question m s skill).2 :: qs, by rw [hqs]; simp⟩
      · refine ⟨{ question := (generate_question m s skill).2
                  answer := answers i
                  score := sc
                  reasoning := rs } :: es, ?_⟩
        rw [hes]
        simp

/-- Inversion for a successful `run_interview`: the jd chain decoded with a
present `role_title`, the loop ran over the first two extracted technical
skills starting from the analyzed session, and the final state is the output
of `generate_final_decision` on the post-loop state. -/
theorem run_interview_ok_inv (m : Model) (answers : Nat → String) (jd name : String)
    (sf : InterviewState) (h : run_interview m answers jd name = .ok sf) :
    ∃ req rt s2,
      m.jd_response jd = .ok req ∧
      req.role_title = some rt ∧
      interview_loop m answers ((req.technical_skills.getD []).take 2) 0
        { init_state name jd with analyzed_requirements := req } = .ok s2 ∧
      sf = (generate_final_decision m s2).1 := by
  unfold run_interview at h
  split at h
  · exact absurd h (by simp)
  · rename_i s1 ha
    obtain ⟨req, rt, hjd, hrt, hs1⟩ := analyze_jd_ok_inv m _ s1 ha
    subst hs1
    dsimp only at h
    split at h
    · exact absurd h (by simp)
    · rename_i s2 hl
      refine ⟨req, rt, s2, hjd, hrt, ?_, ?_⟩
      · exact hl
      · injection h with h
        exact h.symm

/-- Projection: `generate_final_decision` leaves `evaluations` unchanged. -/
theorem gfd_evaluations (m : Model) (s : InterviewState) :
    (generate_final_decision m s).1.evaluations = s.evaluations :=
  rfl

/-- Projection: `generate_final_decision` leaves `generated_questions`
unchanged. -/
theorem gfd_generated_questions (m : Model) (s : InterviewState) :
    (generate_final_decision m s).1.generated_questions = s.generated_questions :=
  rfl

/-- Projection: `generate_final_decision` leaves `candidate_name` unchanged. -/
theorem gfd_candidate_name (m : Model) (s : InterviewState) :
    (generate_final_decision m s).1.candidate_name = s.candidate_name :=
  rfl

/-- Projection: `generate_final_decision` leaves `analyzed_requirements`
unchanged. -/
theorem gfd_analyzed_requirements (m : Model) (s : InterviewState) :
    (generate_final_decision m s).1.analyzed_requirements = s.analyzed_requirements :=
  rfl

/-- Projection: the recommendation stored by `generate_final_decision`. -/
theorem gfd_final_recommendation (m : Model) (s : InterviewState) :
    (generate_final_decision m s).1.final_recommendation
      = some (m.rec_response
          { name := s.candidate_name
            role := s.analyzed_requirements.role_title
            evaluations := eval_summary s.evaluations }) :=
  rfl

/-! ## Stub models used as concrete witnesses -/

/-- Stub model: extraction yields five technical skills; fixed question text
per focus area; every evaluation scores 7 with reasoning "ok"; verdict
"HIRE". -/
def stub5 : Model :=
  { jd_response := fun _ => .ok
      ⟨some "Senior Python Developer",
       some ["Django", "Azure", "REST", "LangChain", "Kubernetes"],
       some [], some "Senior"⟩
    q_response := fun inp => "Q about " ++ inp.focus_area
    eval_response := fun _ => .ok ⟨some 7, some "ok"⟩
    rec_response := fun _ => "HIRE" }

/-- A fixed interactive answer for every cycle. -/
def answersA : Nat → String :=
  fun _ => "my answer"

/-- The session state `run_interview stub5 answersA "jd text" "Alex"`
computes to. -/
def stub5_final : InterviewState :=
  { candidate_name := "Alex"
    job_description := "jd text"
    analyzed_requirements :=
      ⟨some "Senior Python Developer",
       some ["Django", "Azure", "REST", "LangChain", "Kubernetes"],
       some [], some "Senior"⟩
    generated_questions := ["Q about Django", "Q about Azure"]
    evaluations :=
      [⟨"Q about Django", "my answer", 7, "ok"⟩,
       ⟨"Q about Azure", "my answer", 7, "ok"⟩]
    final_recommendation := some "HIRE" }

/-! ## Claim theorems -/

/-- C1: for every session that completes, the number of
question/answer/evaluation cycles performed by `run_interview` — the length
of the question list and of the evaluation log it produces — equals
min(cap, number of extracted technical skills), with the cap hardcoded
to 2 (`[:2]`, src/main.py line 139). -/
theorem run_interview_cycle_count (m : Model) (answers : Nat → String)
    (jd name : String) (req : ReqDict) (sf : InterviewState)
    (hjd : m.jd_response jd = .ok req)
    (hrun : run_interview m answers jd name = .ok sf) :
    sf.evaluations.length = min 2 (req.technical_skills.getD []).length ∧
    sf.generated_questions.length = min 2 (req.technical_skills.getD []).length := by
  obtain ⟨req2, rt, s2, hjd2, hrt, hl, hsf⟩ := run_interview_ok_inv m answers jd name sf hrun
  rw [hjd] at hjd2
  injection hjd2 with hreq
  subst hreq
  obtain ⟨-, -, -, -, h5, h6, -, -, -⟩ := interview_loop_ok_inv m answers _ 0 _ s2 hl
  subst hsf
  rw [gfd_evaluations, gfd_generated_questions]
  constructor
  · simpa [init_state, List.length_take] using h6
  · simpa [init_state, List.length_take] using h5

/-- Witness for C1: with 5 extracted skills and cap 2, exactly 2 cycles. -/
theorem run_interview_cycle_count_witness :
    run_interview stub5 answersA "jd text" "Alex" = .ok stub5_final ∧
    stub5_final.evaluations.length = 2 ∧
    stub5_final.generated_questions.length = 2 := by
  have h := run_interview_cycle_count stub5 answersA "jd text" "Alex"
      ⟨some "Senior Python Developer",
       some ["Django", "Azure", "REST", "LangChain", "Kubernetes"],
       some [], some "Senior"⟩
      stub5_final rfl rfl
  exact ⟨rfl, by simpa using h.1, by simpa using h.2⟩

/-- C2: after a successful run, the evaluation log has exactly one entry per
completed cycle and is index-aligned with the generated questions: mapping
the `question` field over `evaluations` yields `generated_questions`
itself, and the two sequences have equal length. -/
theorem run_interview_eval_alignment (m : Model) (answers : Nat → String)
    (jd name : String) (sf : InterviewState)
    (hrun : run_interview m answers jd name = .ok sf) :
    sf.evaluations.map Evaluation.question = sf.generated_questions ∧
    sf.evaluations.length = sf.generated_questions.length := by
  obtain ⟨req, rt, s2, hjd, hrt, hl, hsf⟩ := run_interview_ok_inv m answers jd name sf hrun
  obtain ⟨-, -, -, -, -, -, h7, -, -⟩ := interview_loop_ok_inv m answers _ 0 _ s2 hl
  have hal : s2.evaluations.map Evaluation.question = s2.generated_questions := h7 rfl
  subst hsf
  rw [gfd_evaluations, gfd_generated_questions]
  refine ⟨hal, ?_⟩
  rw [← hal]
  simp

/-- Witness for C2: index alignment on a concrete completed run. -/
theorem run_interview_eval_alignment_witness :
    stub5_final.evaluations.map Evaluation.question = stub5_final.generated_questions ∧
    stub5_final.evaluations.length = stub5_final.generated_questions.length :=
  run_interview_eval_alignment stub5 answersA "jd text" "Alex" stub5_final rfl

/-- Stub model for the end-to-end scenario: extraction yields
{role: "Senior Python Developer", technical_skills: ["Django","Azure"],
soft_skills: [], seniority: "Senior"}, a fixed question text per skill,
score 7 with reasoning "ok" for each evaluation, and verdict "HIRE". -/
def stubE2E : Model :=
  { jd_response := fun _ => .ok
      ⟨some "Senior Python Developer", some ["Django", "Azure"], some [], some "Senior"⟩
    q_response := fun inp => "Fixed question on " ++ inp.focus_area
    eval_response := fun _ => .ok ⟨some 7, some "ok"⟩
    rec_response := fun _ => "HIRE" }

/-- The final session of the end-to-end scenario. -/
def e2e_final : InterviewState :=
  { candidate_name := "Alex"
    job_description := "Senior Python Developer, skills: Django, Azure"
    analyzed_requirements :=
      ⟨some "Senior Python Developer", some ["Django", "Azure"], some [], some "Senior"⟩
    generated_questions := ["Fixed question on Django", "Fixed question on Azure"]
    evaluations :=
      [⟨"Fixed question on Django", "my answer", 7, "ok"⟩,
       ⟨"Fixed question on Azure", "my answer", 7, "ok"⟩]
    final_recommendation := some "HIRE" }

/-- C3: running the end-to-end scenario with the stubbed model yields a
final session with exactly 2 evaluations — one whose question targets
Django and one Azure — each with score 7, and final recommendation
"HIRE". -/
theorem run_interview_e2e :
    run_interview stubE2E answersA
        "Senior Python Developer, skills: Django, Azure" "Alex" = .ok e2e_final ∧
    e2e_final.evaluations.length = 2 ∧
    e2e_final.evaluations.map Evaluation.question
      = ["Fixed question on Django", "Fixed question on Azure"] ∧
    e2e_final.evaluations.map Evaluation.score = [7, 7] ∧
    e2e_final.final_recommendation = some "HIRE" :=
  ⟨rfl, rfl, rfl, rfl, rfl⟩

/-- C4: a jd-chain decode failure is fatal for the session: `analyze_jd` on
the fresh session raises it, and `run_interview` propagates exactly that
error to its caller — no retry, no fallback, and the run ends before any
question generation. -/
theorem analyze_jd_decode_failure (m : Model) (answers : Nat → String)
    (jd name e : String) (hjd : m.jd_response jd = .error e) :
    analyze_jd m (init_state name jd) = .error e ∧
    run_interview m answers jd name = .error e := by
  have ha : analyze_jd m (init_state name jd) = .error e := by
    unfold analyze_jd
    have hj : m.jd_response (init_state name jd).job_description = .error e := hjd
    rw [hj]
  refine ⟨ha, ?_⟩
  unfold run_interview
  rw [ha]

/-- Stub model whose jd chain always fails to decode. -/
def stubFail : Model :=
  { jd_response := fun _ => .error "Invalid json output"
    q_response := fun _ => "unused question"
    eval_response := fun _ => .ok ⟨some 7, some "ok"⟩
    rec_response := fun _ => "HIRE" }

/-- Witness for C4: the concrete decode failure aborts the concrete run. -/
theorem analyze_jd_decode_failure_witness :
    analyze_jd stubFail (init_state "Alex" "bad jd") = .error "Invalid json output" ∧
    run_interview stubFail answersA "bad jd" "Alex" = .error "Invalid json output" :=
  analyze_jd_decode_failure stubFail answersA "bad jd" "Alex" "Invalid json output" rfl

/-- C6: `generate_question` appends the model's returned text to
`generated_questions` unconditionally: for every state — including any
state already containing an identical question — the new list is the old
list with the response appended, the length always grows by one, and the
occurrence count of the returned text always increases by one (so an exact
duplicate is stored again; uniqueness is never enforced). -/
theorem generate_question_appends (m : Model) (state : InterviewState) (topic : String) :
    (generate_question m state topic).1.generated_questions
      = state.generated_questions ++ [(generate_question m state topic).2] ∧
    (generate_question m state topic).1.generated_questions.length
      = state.generated_questions.length + 1 ∧
    (generate_question m state topic).1.generated_questions.count
        (generate_question m state topic).2
      = state.generated_questions.count (generate_question m state topic).2 + 1 :=
  ⟨rfl, by rw [generate_question_state_eq]; simp,
   by rw [generate_question_state_eq]; simp [List.count_append]⟩

/-- C7: when the evaluation chain decodes to integer score `sc` and
reasoning `rs`, `evaluate_answer` appends exactly
{question, answer, sc, rs} to the evaluation log and returns the decoded
dict; `sc` is universally quantified over all integers and stored exactly
as returned — never clamped, range-checked or validated against [1,10]. -/
theorem evaluate_answer_appends (m : Model) (state : InterviewState)
    (question answer : String) (sc : Int) (rs : String)
    (h : m.eval_response
        { question := question
          answer := answer
          skills := state.analyzed_requirements.technical_skills }
        = .ok ⟨some sc, some rs⟩) :
    evaluate_answer m state question answer
      = .ok ({ state with evaluations := state.evaluations ++
              [{ question := question, answer := answer, score := sc, reasoning := rs }] },
             ⟨some sc, some rs⟩) := by
  unfold evaluate_answer
  rw [h]

/-- Stub model whose evaluation chain returns a score far outside [1,10]. -/
def stubWild : Model :=
  { jd_response := fun _ => .ok ⟨some "Dev", some ["Django"], some [], some "Senior"⟩
    q_response := fun inp => "Q about " ++ inp.focus_area
    eval_response := fun _ => .ok ⟨some 999, some "way out of range"⟩
    rec_response := fun _ => "HIRE" }

/-- Witness for C7: the out-of-range score 999 is stored unchanged. -/
theorem evaluate_answer_appends_witness :
    evaluate_answer stubWild (init_state "Alex" "jd") "q1" "a1"
      = .ok ({ init_state "Alex" "jd" with
              evaluations := [⟨"q1", "a1", 999, "way out of range"⟩] },
             ⟨some 999, some "way out of range"⟩) :=
  evaluate_answer_appends stubWild (init_state "Alex" "jd") "q1" "a1"
    999 "way out of range" rfl

/-- C8: `generate_final_decision` sends the model the concatenation, in log
order, of one question/score/reasoning block per evaluation-log entry,
and stores the returned free-text verdict verbatim (no parsing or
transformation) in `final_recommendation`; in a completed run that field
was still unset when the synthesizer started, is written exactly once by
it, and the stored verdict is computed from the complete final evaluation
log. -/
theorem generate_final_decision_spec (m : Model) (state : InterviewState)
    (answers : Nat → String) (jd name : String) (sf : InterviewState)
    (hrun : run_interview m answers jd name = .ok sf) :
    generate_final_decision m state
      = ({ state with final_recommendation := some (m.rec_response
            { name := state.candidate_name
              role := state.analyzed_requirements.role_title
              evaluations := eval_summary state.evaluations }) },
         m.rec_response
            { name := state.candidate_name
              role := state.analyzed_requirements.role_title
              evaluations := eval_summary state.evaluations }) ∧
    eval_summary state.evaluations = String.join (state.evaluations.map eval_block) ∧
    ∃ s2, s2.final_recommendation = none ∧
      sf = (generate_final_decision m s2).1 ∧
      sf.evaluations = s2.evaluations ∧
      sf.final_recommendation = some (m.rec_response
        { name := s2.candidate_name
          role := s2.analyzed_requirements.role_title
          evaluations := eval_summary s2.evaluations }) := by
  refine ⟨rfl, ?_, ?_⟩
  · unfold eval_summary String.join
    rw [List.foldl_map]
  · obtain ⟨req, rt, s2, hjd, hrt, hl, hsf⟩ := run_interview_ok_inv m answers jd name sf hrun
    obtain ⟨-, -, -, h4, -, -, -, -, -⟩ := interview_loop_ok_inv m answers _ 0 _ s2 hl
    refine ⟨s2, h4, hsf, ?_, ?_⟩
    · rw [hsf, gfd_evaluations]
    · rw [hsf, gfd_final_recommendation]

/-- Witness for C8: summary shape and verbatim "HIRE" verdict on the
concrete completed run. -/
theorem generate_final_decision_spec_witness :
    eval_summary stub5_final.evaluations
      = String.join (stub5_final.evaluations.map eval_block) ∧
    stub5_final.final_recommendation = some "HIRE" := by
  obtain ⟨-, h2, s2, -, -, -, hfr⟩ := generate_final_decision_spec stub5 stub5_final
    answersA "jd text" "Alex" stub5_final rfl
  exact ⟨h2, by rw [hfr]; rfl⟩

/-- C9: frame conditions — each stage writes only its designated session
field: a successful `analyze_jd` only replaces `analyzed_requirements`;
`generate_question` only appends one question; a successful
`evaluate_answer` only appends one evaluation record; and
`generate_final_decision` only sets `final_recommendation`.  In each record
update the candidate name and job description are untouched, and the
question and evaluation sequences grow only by appending. -/
theorem stage_frame_conditions (m : Model) (s sa se : InterviewState)
    (topic question answer : String) (d : EvalDict)
    (ha : analyze_jd m s = .ok sa)
    (he : evaluate_answer m s question answer = .ok (se, d)) :
    (∃ req, sa = { s with analyzed_requirements := req }) ∧
    (generate_question m s topic).1
      = { s with generated_questions :=
            s.generated_questions ++ [(generate_question m s topic).2] } ∧
    (∃ entry, se = { s with evaluations := s.evaluations ++ [entry] }) ∧
    (generate_final_decision m s).1
      = { s with final_recommendation := some (generate_final_decision m s).2 } := by
  obtain ⟨req, rt, -, -, hsa⟩ := analyze_jd_ok_inv m s sa ha
  obtain ⟨sc, rs, -, hse⟩ := evaluate_answer_ok_inv m s se question answer d he
  exact ⟨⟨req, hsa⟩, generate_question_state_eq m s topic,
    ⟨_, hse⟩, generate_final_decision_state_eq m s⟩

/-- The state `analyze_jd stubWild` produces from a fresh session. -/
def wild_sa : InterviewState :=
  { init_state "Alex" "jd" with
    analyzed_requirements := ⟨some "Dev", some ["Django"], some [], some "Senior"⟩ }

/-- The state `evaluate_answer stubWild` produces from a fresh session. -/
def wild_se : InterviewState :=
  { init_state "Alex" "jd" with
    evaluations := [⟨"q1", "a1", 999, "way out of range"⟩] }

/-- Witness for C9: the frame conditions at a concrete model and session. -/
theorem stage_frame_conditions_witness :
    (∃ req, wild_sa = { init_state "Alex" "jd" with analyzed_requirements := req }) ∧
    (generate_question stubWild (init_state "Alex" "jd") "Django").1
      = { init_state "Alex" "jd" with
          generated_questions := [(generate_question stubWild (init_state "Alex" "jd") "Django").2] } ∧
    (∃ entry, wild_se = { init_state "Alex" "jd" with evaluations := [entry] }) ∧
    (generate_final_decision stubWild (init_state "Alex" "jd")).1
      = { init_state "Alex" "jd" with
          final_recommendation := some (generate_final_decision stubWild (init_state "Alex" "jd")).2 } :=
  stage_frame_conditions stubWild (init_state "Alex" "jd") wild_sa wild_se
    "Django" "q1" "a1" ⟨some 999, some "way out of range"⟩ rfl rfl

/-- C10: extraction JSON with `role_title` present but no usable
`technical_skills` (key absent, or mapped to the empty list) is accepted:
`analyze_jd` succeeds and stores the dict, zero question/answer/evaluation
cycles run, and the synthesizer still runs — the session ends with an empty
evaluation log, an empty question list, yet a populated final
recommendation (the verdict over the empty summary). -/
theorem missing_skills_zero_cycles (m : Model) (answers : Nat → String)
    (jd name rt : String) (req : ReqDict)
    (hjd : m.jd_response jd = .ok req)
    (hrt : req.role_title = some rt)
    (hts : req.technical_skills.getD [] = []) :
    analyze_jd m (init_state name jd)
      = .ok { init_state name jd with analyzed_requirements := req } ∧
    run_interview m answers jd name
      = .ok { init_state name jd with
          analyzed_requirements := req
          final_recommendation := some (m.rec_response
            { name := name, role := some rt, evaluations := "" }) } := by
  have ha : analyze_jd m (init_state name jd)
      = .ok { init_state name jd with analyzed_requirements := req } := by
    unfold analyze_jd
    have hj : m.jd_response (init_state name jd).job_description = .ok req := hjd
    rw [hj]
    simp only [hrt]
  refine ⟨ha, ?_⟩
  unfold run_interview
  rw [ha]
  dsimp only
  have hskills : ({ init_state name jd with
      analyzed_requirements := req }).analyzed_requirements.technical_skills.getD [] = [] := hts
  rw [hskills]
  simp only [List.take_nil, interview_loop]
  unfold generate_final_decision
  rw [hrt]
  rfl

/-- Stub model whose extraction lacks the `technical_skills` key. -/
def stubNoSkills : Model :=
  { jd_response := fun _ => .ok ⟨some "Data Analyst", none, none, none⟩
    q_response := fun inp => "Q about " ++ inp.focus_area
    eval_response := fun _ => .ok ⟨some 7, some "ok"⟩
    rec_response := fun _ => "FOLLOW-UP" }

/-- Witness for C10: the concrete skill-less extraction still completes with
an empty evaluation log and a populated recommendation. -/
theorem missing_skills_zero_cycles_witness :
    run_interview stubNoSkills answersA "jd" "Sam"
      = .ok { init_state "Sam" "jd" with
          analyzed_requirements := ⟨some "Data Analyst", none, none, none⟩
          final_recommendation := some "FOLLOW-UP" } :=
  (missing_skills_zero_cycles stubNoSkills answersA "jd" "Sam" "Data Analyst"
    ⟨some "Data Analyst", none, none, none⟩ rfl rfl rfl).2

/-- If two models share the evaluation chain and their question chains agree
on every input whose role, skill list and seniority are the ones stored in
`req`, the interview loop cannot tell them apart from any state holding
`req`: inside the loop the question generator is consulted only at inputs
carrying the stored requirements. -/
theorem interview_loop_model_agree (m m2 : Model) (answers : Nat → String)
    (req : ReqDict)
    (heval : m2.eval_response = m.eval_response)
    (hagree : ∀ inp : QInput, inp.role = req.role_title →
        inp.tech_skills = String.intercalate ", " (req.technical_skills.getD []) →
        inp.seniority = req.seniority_level →
        m2.q_response inp = m.q_response inp) :
    ∀ (skills : List String) (i : Nat) (s : InterviewState),
      s.analyzed_requirements = req →
      interview_loop m2 answers skills i s = interview_loop m answers skills i s := by
  intro skills
  induction skills with
  | nil => intro i s hs; rfl
  | cons skill rest ih =>
    intro i s hs
    simp only [interview_loop]
    have hq : generate_question m2 s skill = generate_question m s skill := by
      unfold generate_question
      rw [hagree
            { role := s.analyzed_requirements.role_title
              tech_skills :=
                String.intercalate ", " (s.analyzed_requirements.technical_skills.getD [])
              seniority := s.analyzed_requirements.seniority_level
              previous_questions := String.intercalate "\n" s.generated_questions
              focus_area := skill }
            (by simp [hs]) (by simp [hs]) (by simp [hs])]
    rw [hq]
    have he : evaluate_answer m2 (generate_question m s skill).1
        (generate_question m s skill).2 (answers i)
        = evaluate_answer m (generate_question m s skill).1
          (generate_question m s skill).2 (answers i) := by
      unfold evaluate_answer
      rw [heval]
    rw [he]
    cases hev : evaluate_answer m (generate_question m s skill).1
        (generate_question m s skill).2 (answers i) with
    | error e => rfl
    | ok res =>
      obtain ⟨s2, d⟩ := res
      dsimp only
      obtain ⟨sc, rs, -, hs2⟩ :=
        evaluate_answer_ok_inv m (generate_question m s skill).1 s2
          (generate_question m s skill).2 (answers i) d hev
      apply ih
      rw [hs2, generate_question_state_eq]
      exact hs

/-- C5: on a well-formed extraction the session's requirements are populated
with all four fields before any question is generated, and the question
generator is never invoked on a session with unset requirements: after
`analyze_jd` the stored requirements equal the fully-populated `req` while
`generated_questions` is still empty, and the whole run's outcome is
unchanged under any modification of the question chain away from inputs
carrying the populated requirements — the generator is only ever consulted
with them. -/
theorem requirements_before_questions (m m2 : Model) (answers : Nat → String)
    (jd name : String) (req : ReqDict)
    (hjd : m.jd_response jd = .ok req)
    (hfour : req.role_title.isSome ∧ req.technical_skills.isSome ∧
      req.soft_skills.isSome ∧ req.seniority_level.isSome)
    (hjd2 : m2.jd_response = m.jd_response)
    (heval : m2.eval_response = m.eval_response)
    (hrec : m2.rec_response = m.rec_response)
    (hagree : ∀ inp : QInput, inp.role = req.role_title →
        inp.tech_skills = String.intercalate ", " (req.technical_skills.getD []) →
        inp.seniority = req.seniority_level →
        m2.q_response inp = m.q_response inp) :
    (∃ rt ts ss sl, req = ⟨some rt, some ts, some ss, some sl⟩) ∧
    analyze_jd m (init_state name jd)
      = .ok { init_state name jd with analyzed_requirements := req } ∧
    ({ init_state name jd with analyzed_requirements := req }).generated_questions = [] ∧
    run_interview m2 answers jd name = run_interview m answers jd name := by
  obtain ⟨h1, h2, h3, h4⟩ := hfour
  obtain ⟨rt, hrt⟩ := Option.isSome_iff_exists.mp h1
  obtain ⟨ts, hts⟩ := Option.isSome_iff_exists.mp h2
  obtain ⟨ss, hss⟩ := Option.isSome_iff_exists.mp h3
  obtain ⟨sl, hsl⟩ := Option.isSome_iff_exists.mp h4
  have ha : analyze_jd m (init_state name jd)
      = .ok { init_state name jd with analyzed_requirements := req } := by
    unfold analyze_jd
    have hj : m.jd_response (init_state name jd).job_description = .ok req := hjd
    rw [hj]
    simp only [hrt]
  have ha2 : analyze_jd m2 (init_state name jd)
      = .ok { init_state name jd with analyzed_requirements := req } := by
    unfold analyze_jd
    have hj : m2.jd_response (init_state name jd).job_description = .ok req := by
      rw [hjd2]; exact hjd
    rw [hj]
    simp only [hrt]
  refine ⟨⟨rt, ts, ss, sl, ?_⟩, ha, rfl, ?_⟩
  · cases req
    simp_all
  · unfold run_interview
    rw [ha, ha2]
    dsimp only
    rw [interview_loop_model_agree m m2 answers req heval hagree _ 0 _ rfl]
    cases interview_loop m answers
        (List.take 2
          (({ init_state name jd with
              analyzed_requirements := req }).analyzed_requirements.technical_skills.getD []))
        0 { init_state name jd with analyzed_requirements := req } with
    | error e => rfl
    | ok s2 =>
      dsimp only
      unfold generate_final_decision
      rw [hrec]

/-- A variant of `stub5` whose question chain misbehaves exactly on inputs
with an unset role — the theorem shows the run never consults it there. -/
def stub5alt : Model :=
  { stub5 with q_response := fun inp =>
      if inp.role = none then "ROGUE" else stub5.q_response inp }

/-- Witness for C5: the concrete well-formed extraction is stored before any
question exists, and the rogue-on-unset-requirements model runs
identically. -/
theorem requirements_before_questions_witness :
    analyze_jd stub5 (init_state "Alex" "jd text")
      = .ok { init_state "Alex" "jd text" with
          analyzed_requirements :=
            ⟨some "Senior Python Developer",
             some ["Django", "Azure", "REST", "LangChain", "Kubernetes"],
             some [], some "Senior"⟩ } ∧
    run_interview stub5alt answersA "jd text" "Alex"
      = run_interview stub5 answersA "jd text" "Alex" := by
  have h := requirements_before_questions stub5 stub5alt answersA "jd text" "Alex"
      ⟨some "Senior Python Developer",
       some ["Django", "Azure", "REST", "LangChain", "Kubernetes"],
       some [], some "Senior"⟩
      rfl ⟨rfl, rfl, rfl, rfl⟩ rfl rfl rfl
      (fun inp hrole _ _ => by
        show (if inp.role = none then "ROGUE" else stub5.q_response inp)
          = stub5.q_response inp
        rw [hrole]
        simp)
  exact ⟨h.2.1, h.2.2.2⟩
